import Mathlib

/-!
Verification of the proof-to-calldata serialization pipeline of `stone-cli`
(`src/serialize.rs` and its vector-decoding helper module `vec252`).

The pipeline: parse a proof document into four sections (config, public_input,
unsent_commitment, witness), decode each section's JSON tree into a flat
sequence of prime-field elements, concatenate the four sequences in that fixed
order, append a version-tag field element, render the result as a
space-separated decimal string, and write it to the output file.

Machine integers and field elements are embedded as `Nat` with explicit
reduction modulo the Stark prime; the file system is embedded as a partial map
from path to contents so that the write/overwrite behaviour of `fs::write`
is visible.
-/

/-- The Stark field prime used by `cairo_felt::Felt252`:
`2^251 + 17 * 2^192 + 1`. -/
def PRIME : ℕ := 2 ^ 251 + 17 * 2 ^ 192 + 1

/-- A field element: a canonical representative in `[0, PRIME)`, mirroring
`cairo_felt::Felt252` (always stored reduced). -/
abbrev Felt252 := Fin PRIME

/-- Construction of a `Felt252` from an unsigned integer reduces modulo the
prime, mirroring `Felt252::from`. -/
def Felt252.ofNat (n : ℕ) : Felt252 :=
  ⟨n % PRIME, Nat.mod_lt n (by unfold PRIME; positivity)⟩

/-- `Felt252`'s `Display`/`to_string` renders the canonical representative in
decimal (the `num_bigint::BigUint` decimal rendering). -/
def Felt252.to_string (f : Felt252) : String := Nat.repr f.val

/-- A JSON value, as produced by `serde_json` for the proof sections. -/
inductive Json where
  | num (n : ℕ)
  | str (s : String)
  | arr (elems : List Json)
  | bool (b : Bool)
  | null
  | obj (fields : List (String × Json))
deriving Repr

/-- The error taxonomy of the pipeline (spec section 7). -/
inductive SerError where
  | MalformedScalar (token : String)
  | UnsupportedShape
  | ProofParseError (msg : String)
  | MissingSection (name : String)
deriving Repr, DecidableEq

/-- Value of a decimal digit character, `none` on a non-digit. -/
def decDigit (c : Char) : Option ℕ :=
  if c.isDigit then some (c.toNat - 48) else none

/-- Value of a hexadecimal digit character, `none` on a non-hex-digit. -/
def hexDigit (c : Char) : Option ℕ :=
  if c.isDigit then some (c.toNat - 48)
  else if 97 ≤ c.toNat ∧ c.toNat ≤ 102 then some (c.toNat - 87)
  else if 65 ≤ c.toNat ∧ c.toNat ≤ 70 then some (c.toNat - 55)
  else none

/-- Accumulating digit-sequence evaluator: most significant digit first. -/
def parseDigitsAux (digit : Char → Option ℕ) (base : ℕ) :
    List Char → ℕ → Option ℕ
  | [], acc => some acc
  | c :: cs, acc =>
    match digit c with
    | some d => parseDigitsAux digit base cs (acc * base + d)
    | none => none

/-- Parse a non-empty digit string in the given base. -/
def parseDigits (digit : Char → Option ℕ) (base : ℕ) (cs : List Char) :
    Option ℕ :=
  if cs.isEmpty then none else parseDigitsAux digit base cs 0

/-- Modelled from the spec: the scalar-literal parser of the missing
`vec252.rs` module (spec section 4.1) — a string token is interpreted as
hexadecimal when it carries a `0x` prefix and as decimal otherwise;
any other token is not a valid integer literal. -/
def parseScalar (s : String) : Option ℕ :=
  let cs := s.toList
  if cs.take 2 = ['0', 'x'] then parseDigits hexDigit 16 (cs.drop 2)
  else parseDigits decDigit 10 cs

mutual
/-- Modelled from the spec: the `VecFelt252` JSON decoder of the missing
`vec252.rs` module (spec section 4.2) — a scalar (number or numeric string)
decodes to one field element, an array is visited left-to-right with nested
arrays flattened inline, and any other JSON shape is an `UnsupportedShape`
error. -/
def decodeJson : Json → Except SerError (List Felt252)
  | Json.num n => Except.ok [Felt252.ofNat n]
  | Json.str s =>
    match parseScalar s with
    | some v => Except.ok [Felt252.ofNat v]
    | none => Except.error (SerError.MalformedScalar s)
  | Json.arr elems => decodeArr elems
  | Json.bool _ => Except.error SerError.UnsupportedShape
  | Json.null => Except.error SerError.UnsupportedShape
  | Json.obj _ => Except.error SerError.UnsupportedShape

/-- Left-to-right decoding of an array's elements, splicing each element's
decoded sequence into the output. -/
def decodeArr : List Json → Except SerError (List Felt252)
  | [] => Except.ok []
  | e :: rest => do
    let xs ← decodeJson e
    let ys ← decodeArr rest
    pure (xs ++ ys)
end

/-- The raw text of a proof file, as seen by the third-party container
parser: either not parseable as the proof container format at all, or a
sequence of named top-level sections. -/
inductive RawProofText where
  | malformed (msg : String)
  | sections (secs : List (String × Json))

/-- The four required section names, in the fixed pipeline order. -/
def requiredSections : List String :=
  ["config", "public_input", "unsent_commitment", "witness"]

/-- Look up a named top-level section of the proof document. -/
def findSection (secs : List (String × Json)) (name : String) : Option Json :=
  (secs.find? (fun kv => kv.fst == name)).map Prod.snd

/-- Modelled from the spec: the third-party proof-container parser
(`cairo_proof_parser::parse`, spec section 4.3) — unparseable raw text is a
`ProofParseError`, and an absent required section is a `MissingSection`
naming it; the four sections are otherwise returned as JSON trees without
semantic validation. -/
def parse (raw : RawProofText) : Except SerError (Json × Json × Json × Json) :=
  match raw with
  | RawProofText.malformed msg => Except.error (SerError.ProofParseError msg)
  | RawProofText.sections secs =>
    match findSection secs "config" with
    | none => Except.error (SerError.MissingSection "config")
    | some c =>
      match findSection secs "public_input" with
      | none => Except.error (SerError.MissingSection "public_input")
      | some p =>
        match findSection secs "unsent_commitment" with
        | none => Except.error (SerError.MissingSection "unsent_commitment")
        | some u =>
          match findSection secs "witness" with
          | none => Except.error (SerError.MissingSection "witness")
          | some w => Except.ok (c, p, u, w)

/-- `parse_proof_file` (src/serialize.rs:50-59): parse the raw contents and
decode each of the four sections into a typed vector of field elements. -/
def parse_proof_file (raw : RawProofText) :
    Except SerError (List Felt252 × List Felt252 × List Felt252 × List Felt252) := do
  let (c, p, u, w) ← parse raw
  let config ← decodeJson c
  let public_input ← decodeJson p
  let unsent_commitment ← decodeJson u
  let witness ← decodeJson w
  pure (config, public_input, unsent_commitment, witness)

/-- `CairoVersion` (src/serialize.rs:13-17). -/
inductive CairoVersion where
  | Cairo0
  | Cairo1
deriving Repr, DecidableEq

/-- `impl From<CairoVersion> for Felt252` (src/serialize.rs:19-26). -/
def CairoVersion.toFelt : CairoVersion → Felt252
  | CairoVersion.Cairo0 => Felt252.ofNat 0
  | CairoVersion.Cairo1 => Felt252.ofNat 1

/-- `Vec::join(" ")`: concatenate the strings with a single space between
each adjacent pair, no leading or trailing separator. -/
def join_space : List String → String
  | [] => ""
  | [s] => s
  | s :: t :: rest => s ++ " " ++ join_space (t :: rest)

/-- Render a calldata sequence: each element's decimal string, space-joined
(src/serialize.rs:41-44). -/
def render_calldata (l : List Felt252) : String :=
  join_space (l.map Felt252.to_string)

/-- The pure part of `serialize_proof` (src/serialize.rs:28-44): parse and
decode the four sections, chain them in order with the `Cairo1` version tag
appended, and render the space-joined decimal string. -/
def serialize_calldata_string (raw : RawProofText) : Except SerError String := do
  let (config, public_input, unsent_commitment, witness) ← parse_proof_file raw
  let proof := config ++ public_input ++ unsent_commitment ++ witness
  let calldata := proof ++ [CairoVersion.toFelt CairoVersion.Cairo1]
  pure (render_calldata calldata)

/-- The file system visible to the pipeline: a partial map from path to
contents. -/
def FileSystem := String → Option String

/-- `fs::write`: create or truncate the destination and write the full
contents, replacing whatever was there. -/
def fs_write (fs : FileSystem) (dest content : String) : FileSystem :=
  fun p => if p = dest then some content else fs p

/-- `serialize_proof` (src/serialize.rs:28-48) including its effect: on any
stage failure the error propagates out (`?`) before `fs::write` runs; on
success the rendered string is written to the output path. -/
def serialize_proof (raw : RawProofText) (output : String) (fs : FileSystem) :
    FileSystem × Option SerError :=
  match serialize_calldata_string raw with
  | Except.error e => (fs, some e)
  | Except.ok calldata_string => (fs_write fs output calldata_string, none)

/-- Numeric value denoted by a most-significant-first list of decimal digit
characters. -/
def listVal (cs : List Char) : ℕ := cs.foldl (fun a c => a * 10 + (c.toNat - 48)) 0

/-- The spec's worked example document: `config=[1,2]`, `public_input=[3]`,
`unsent_commitment=[]`, `witness=[[4],[5,6]]`. -/
def exampleDoc : RawProofText :=
  RawProofText.sections
    [("config", Json.arr [Json.num 1, Json.num 2]),
     ("public_input", Json.arr [Json.num 3]),
     ("unsent_commitment", Json.arr []),
     ("witness", Json.arr [Json.arr [Json.num 4], Json.arr [Json.num 5, Json.num 6]])]

/-- Sections of a document whose `witness` key is absent while the other
three sections are present. -/
def missingWitnessSections : List (String × Json) :=
  [("config", Json.arr [Json.num 1]),
   ("public_input", Json.arr [Json.num 2]),
   ("unsent_commitment", Json.arr [])]

/-- A document whose `witness` key is absent while the other three sections
are present. -/
def docMissingWitness : RawProofText :=
  RawProofText.sections missingWitnessSections

/-- A document whose `witness` section contains a boolean value. -/
def docBoolWitness : RawProofText :=
  RawProofText.sections
    [("config", Json.arr [Json.num 1]),
     ("public_input", Json.arr []),
     ("unsent_commitment", Json.arr []),
     ("witness", Json.arr [Json.bool true])]

/-- A document whose four sections all decode to the empty vector. -/
def emptyDoc : RawProofText :=
  RawProofText.sections
    [("config", Json.arr []),
     ("public_input", Json.arr []),
     ("unsent_commitment", Json.arr []),
     ("witness", Json.arr [])]

/-- The everywhere-undefined file system, for concrete witnesses. -/
def emptyFS : FileSystem := fun _ => none

theorem toDigitsCore_shift (fuel n : ℕ) (ds : List Char) :
    Nat.toDigitsCore 10 fuel n ds = Nat.toDigitsCore 10 fuel n [] ++ ds := by
  induction fuel generalizing n ds with
  | zero => simp [Nat.toDigitsCore]
  | succ fuel ih =>
    simp only [Nat.toDigitsCore]
    by_cases h : n / 10 = 0
    · simp [h]
    · simp only [h, if_neg, ite_false]
      rw [ih (n / 10) (Nat.digitChar (n % 10) :: ds), ih (n / 10) [Nat.digitChar (n % 10)]]
      simp

theorem toDigitsCore_mem (fuel n : ℕ) (c : Char)
    (hc : c ∈ Nat.toDigitsCore 10 fuel n []) : c.isDigit := by
  have key : ∀ m, m < 10 → (Nat.digitChar m).isDigit := by decide
  induction fuel generalizing n with
  | zero => simp [Nat.toDigitsCore] at hc
  | succ fuel ih =>
    simp only [Nat.toDigitsCore] at hc
    by_cases h : n / 10 = 0
    · simp [h] at hc
      subst hc
      exact key _ (Nat.mod_lt _ (by norm_num))
    · simp only [h, if_neg, ite_false] at hc
      rw [toDigitsCore_shift] at hc
      rcases List.mem_append.mp hc with h1 | h1
      · exact ih _ h1
      · simp at h1
        subst h1
        exact key _ (Nat.mod_lt _ (by norm_num))

theorem toDigitsCore_ne_nil (fuel n : ℕ) (h : 0 < fuel) :
    Nat.toDigitsCore 10 fuel n [] ≠ [] := by
  cases fuel with
  | zero => omega
  | succ fuel =>
    simp only [Nat.toDigitsCore]
    by_cases h2 : n / 10 = 0
    · simp [h2]
    · simp only [h2, if_neg, ite_false]
      rw [toDigitsCore_shift]
      simp

theorem toDigitsCore_val (fuel n : ℕ) (h : n < 10 ^ fuel) :
    listVal (Nat.toDigitsCore 10 fuel n []) = n := by
  have key : ∀ m, m < 10 → (Nat.digitChar m).toNat - 48 = m := by decide
  induction fuel generalizing n with
  | zero =>
    simp at h
    simp [Nat.toDigitsCore, listVal, h]
  | succ fuel ih =>
    simp only [Nat.toDigitsCore]
    by_cases h2 : n / 10 = 0
    · simp only [h2, if_pos]
      have hm : n % 10 = n := by omega
      simp [listVal, List.foldl, key _ (Nat.mod_lt _ (by norm_num)), hm]
      exact key n (by omega)
    · simp only [h2, if_neg, ite_false]
      rw [toDigitsCore_shift]
      have hlt : n / 10 < 10 ^ fuel := by
        rw [Nat.div_lt_iff_lt_mul (by norm_num)]
        calc n < 10 ^ (fuel + 1) := h
        _ = 10 ^ fuel * 10 := by ring
      have := ih (n / 10) hlt
      simp only [listVal] at this ⊢
      rw [List.foldl_append, this]
      simp [key _ (Nat.mod_lt _ (by norm_num))]
      omega

theorem toDigitsCore_head (fuel n : ℕ) (hn : 0 < n) (h : n < 10 ^ fuel) (c : Char)
    (hc : (Nat.toDigitsCore 10 fuel n []).head? = some c) : ¬ c = '0' := by
  have key : ∀ m, m < 10 → 0 < m → ¬ Nat.digitChar m = '0' := by decide
  induction fuel generalizing n with
  | zero =>
    simp at h
    omega
  | succ fuel ih =>
    simp only [Nat.toDigitsCore] at hc
    by_cases h2 : n / 10 = 0
    · simp [h2] at hc
      subst hc
      have hm : n % 10 = n := by omega
      exact hm ▸ key _ (by omega) (by omega)
    · simp only [h2, if_neg, ite_false] at hc
      rw [toDigitsCore_shift] at hc
      have hfz : 0 < fuel := by
        rcases Nat.eq_zero_or_pos fuel with hf | hf
        · subst hf
          simp at h
          omega
        · exact hf
      have hne := toDigitsCore_ne_nil fuel (n / 10) hfz
      rw [List.head?_append] at hc
      cases hl : (Nat.toDigitsCore 10 fuel (n / 10) []).head? with
      | none => exact absurd (List.head?_eq_none_iff.mp hl) hne
      | some d =>
        rw [hl] at hc
        simp [Option.or] at hc
        subst hc
        have hlt : n / 10 < 10 ^ fuel := by
          rw [Nat.div_lt_iff_lt_mul (by norm_num)]
          calc n < 10 ^ (fuel + 1) := h
          _ = 10 ^ fuel * 10 := by ring
        exact ih (n / 10) (by omega) hlt hl

theorem repr_toList (n : ℕ) :
    (Nat.repr n).toList = Nat.toDigitsCore 10 (n + 1) n [] := rfl

theorem repr_digits (n : ℕ) (c : Char) (hc : c ∈ (Nat.repr n).toList) :
    c.isDigit := toDigitsCore_mem _ _ _ (repr_toList n ▸ hc)

theorem repr_ne_nil (n : ℕ) : (Nat.repr n).toList ≠ [] := by
  rw [repr_toList]
  exact toDigitsCore_ne_nil _ _ (Nat.succ_pos n)

theorem n_lt_pow (n : ℕ) : n < 10 ^ (n + 1) :=
  lt_of_lt_of_le (Nat.lt_pow_self (by norm_num) n)
    (Nat.pow_le_pow_right (by norm_num) (Nat.le_succ n))

theorem repr_val (n : ℕ) : listVal ((Nat.repr n).toList) = n := by
  rw [repr_toList]
  exact toDigitsCore_val _ _ (n_lt_pow n)

theorem repr_head (n : ℕ) (hn : 0 < n) (c : Char)
    (hc : (Nat.repr n).toList.head? = some c) : ¬ c = '0' :=
  toDigitsCore_head _ _ hn (n_lt_pow n) c (repr_toList n ▸ hc)

theorem parseDigitsAux_digits (cs : List Char) (acc : ℕ)
    (h : ∀ c ∈ cs, c.isDigit) :
    parseDigitsAux decDigit 10 cs acc =
      some (cs.foldl (fun a c => a * 10 + (c.toNat - 48)) acc) := by
  induction cs generalizing acc with
  | nil => rfl
  | cons c cs ih =>
    have hd := h c (by simp)
    simp only [parseDigitsAux, decDigit, hd, if_pos, List.foldl]
    exact ih _ (fun x hx => h x (by simp [hx]))

theorem parseDigits_repr (n : ℕ) :
    parseDigits decDigit 10 ((Nat.repr n).toList) = some n := by
  unfold parseDigits
  have hne := repr_ne_nil n
  rw [if_neg (by simpa using hne)]
  rw [parseDigitsAux_digits _ _ (fun c hc => repr_digits n c hc)]
  have := repr_val n
  simp only [listVal] at this
  rw [this]

theorem parseScalar_repr (n : ℕ) : parseScalar (Nat.repr n) = some n := by
  unfold parseScalar
  have hx : ¬ ((Nat.repr n).toList.take 2 = ['0', 'x']) := by
    intro h
    have hmemt : 'x' ∈ (Nat.repr n).toList.take 2 := by rw [h]; simp
    have hmem : 'x' ∈ (Nat.repr n).toList := List.take_subset _ _ hmemt
    have := repr_digits n 'x' hmem
    simp at this
  simp only
  rw [if_neg hx]
  exact parseDigits_repr n

theorem join_space_data (s t : String) (rest : List String) :
    (join_space (s :: t :: rest)).data =
      s.data ++ ' ' :: (join_space (t :: rest)).data := by
  show (s ++ " " ++ join_space (t :: rest)).data = _
  simp [String.data_append]

theorem join_space_count (ss : List String)
    (h : ∀ s ∈ ss, ∀ c ∈ s.data, ¬ c = ' ') :
    (join_space ss).data.count ' ' = ss.length - 1 := by
  induction ss with
  | nil => rfl
  | cons s ss ih =>
    cases ss with
    | nil =>
      show s.data.count ' ' = 0
      exact List.count_eq_zero.mpr (fun hc => h s (by simp) ' ' hc rfl)
    | cons t rest =>
      rw [join_space_data]
      rw [List.count_append]
      have h1 : s.data.count ' ' = 0 :=
        List.count_eq_zero.mpr (fun hc => h s (by simp) ' ' hc rfl)
      have h2 := ih (fun x hx => h x (by simp [hx]))
      rw [h1, List.count_cons_self, h2]
      simp

theorem join_space_ne_nil (ss : List String) (h1 : ss ≠ [])
    (h2 : ∀ s ∈ ss, s.data ≠ []) : (join_space ss).data ≠ [] := by
  cases ss with
  | nil => exact absurd rfl h1
  | cons s ss =>
    cases ss with
    | nil => exact h2 s (by simp)
    | cons t rest =>
      rw [join_space_data]
      simp

theorem join_space_head (ss : List String) (h1 : ss ≠ [])
    (h2 : ∀ s ∈ ss, s.data ≠ [] ∧ ∀ c ∈ s.data, ¬ c = ' ')
    (c : Char) (hc : (join_space ss).data.head? = some c) : ¬ c = ' ' := by
  cases ss with
  | nil => exact absurd rfl h1
  | cons s ss =>
    have hs := h2 s (by simp)
    have hcm : c ∈ s.data := by
      cases hd : s.data with
      | nil => exact absurd hd hs.1
      | cons d ds =>
        cases ss with
        | nil =>
          have hj : (join_space [s]).data = d :: ds := by
            show s.data = d :: ds
            exact hd
          rw [hj] at hc
          simp at hc
          rw [← hc]
          simp
        | cons t rest =>
          rw [join_space_data, List.head?_append, hd] at hc
          simp [Option.or] at hc
          rw [← hc]
          simp
    exact hs.2 c hcm

theorem join_space_last (ss : List String)
    (h2 : ∀ s ∈ ss, s.data ≠ [] ∧ ∀ c ∈ s.data, ¬ c = ' ')
    (c : Char) (hc : (join_space ss).data.getLast? = some c) : ¬ c = ' ' := by
  induction ss with
  | nil =>
    simp [join_space] at hc
  | cons s ss ih =>
    have hs := h2 s (by simp)
    cases ss with
    | nil =>
      have hcm : c ∈ s.data := by
        have hj : (join_space [s]).data = s.data := rfl
        rw [hj] at hc
        exact List.mem_of_getLast?_eq_some hc
      exact hs.2 c hcm
    | cons t rest =>
      rw [join_space_data] at hc
      have hne : (join_space (t :: rest)).data ≠ [] :=
        join_space_ne_nil _ (by simp) (fun x hx => (h2 x (by simp [hx])).1)
      rw [List.getLast?_append] at hc
      have hlast : ∃ d, (join_space (t :: rest)).data.getLast? = some d := by
        cases hg : (join_space (t :: rest)).data.getLast? with
        | none => exact absurd (List.getLast?_eq_none_iff.mp hg) hne
        | some d => exact ⟨d, rfl⟩
      obtain ⟨d, hd⟩ := hlast
      have hc2 : (' ' :: (join_space (t :: rest)).data).getLast? = some d := by
        rw [List.getLast?_cons]
        simp [hd]
      rw [hc2] at hc
      simp [Option.or] at hc
      subst hc
      exact ih (fun x hx => h2 x (by simp [hx])) hd

theorem join_space_append_single (ss : List String) (t : String) (h : ss ≠ []) :
    join_space (ss ++ [t]) = join_space ss ++ " " ++ t := by
  induction ss with
  | nil => exact absurd rfl h
  | cons s ss ih =>
    cases ss with
    | nil => rfl
    | cons u rest =>
      show s ++ " " ++ join_space ((u :: rest) ++ [t]) = _
      rw [ih (by simp)]
      show _ = (s ++ " " ++ join_space (u :: rest)) ++ " " ++ t
      simp [String.ext_iff, String.data_append]

theorem decodeArr_eq_mapM (xs : List Json) :
    decodeArr xs = List.flatten <$> xs.mapM decodeJson := by
  induction xs with
  | nil => rfl
  | cons e rest ih =>
    rw [List.mapM_cons]
    show (do
      let v ← decodeJson e
      let ys ← decodeArr rest
      pure (v ++ ys)) = _
    cases h : decodeJson e with
    | error err => rfl
    | ok v =>
      rw [ih]
      cases h2 : rest.mapM decodeJson with
      | error err => rfl
      | ok vs => rfl

theorem digit_ne_space (c : Char) (h : c.isDigit) : ¬ c = ' ' := by
  intro heq
  subst heq
  simp at h

theorem felt_data_props (f : Felt252) :
    (Felt252.to_string f).data ≠ [] ∧ ∀ c ∈ (Felt252.to_string f).data, ¬ c = ' ' := by
  constructor
  · exact repr_ne_nil f.val
  · intro c hc
    exact digit_ne_space c (repr_digits f.val c hc)

theorem render_calldata_count (l : List Felt252) :
    (render_calldata l).data.count ' ' = l.length - 1 := by
  unfold render_calldata
  have hprop : ∀ s ∈ l.map Felt252.to_string, ∀ c ∈ s.data, ¬ c = ' ' := by
    intro s hs c hc
    obtain ⟨f, hf, rfl⟩ := List.mem_map.mp hs
    exact (felt_data_props f).2 c hc
  rw [join_space_count _ hprop, List.length_map]

theorem parse_proof_file_error (raw : RawProofText) (e : SerError)
    (h : parse raw = Except.error e) :
    parse_proof_file raw = Except.error e := by
  unfold parse_proof_file
  rw [h]
  rfl

/-- C1: for every successfully parsed and decoded proof, the serialized
calldata is exactly the concatenation of the config, public_input,
unsent_commitment and witness vectors in that fixed order followed by
exactly one version-tag field element as the final entry — no reordering,
no truncation, and the version element is appended exactly once. -/
theorem serialize_calldata_order (raw : RawProofText) (c p u w : List Felt252)
    (h : parse_proof_file raw = Except.ok (c, p, u, w)) :
    serialize_calldata_string raw =
      Except.ok (render_calldata
        (c ++ p ++ u ++ w ++ [CairoVersion.toFelt CairoVersion.Cairo1]))
    ∧ (c ++ p ++ u ++ w ++ [CairoVersion.toFelt CairoVersion.Cairo1]).getLast? =
      some (CairoVersion.toFelt CairoVersion.Cairo1)
    ∧ (c ++ p ++ u ++ w ++ [CairoVersion.toFelt CairoVersion.Cairo1]).length =
      c.length + p.length + u.length + w.length + 1 := by
  refine ⟨?_, ?_, ?_⟩
  · unfold serialize_calldata_string
    rw [h]
    rfl
  · exact List.getLast?_concat _
  · simp [List.length_append]
    omega

/-- Witness for C1 at the spec's worked example. -/
theorem serialize_calldata_order_witness :
    parse_proof_file exampleDoc = Except.ok
      ([Felt252.ofNat 1, Felt252.ofNat 2], [Felt252.ofNat 3], ([] : List Felt252),
        [Felt252.ofNat 4, Felt252.ofNat 5, Felt252.ofNat 6])
    ∧ serialize_calldata_string exampleDoc =
      Except.ok (render_calldata
        ([Felt252.ofNat 1, Felt252.ofNat 2] ++ [Felt252.ofNat 3] ++ [] ++
          [Felt252.ofNat 4, Felt252.ofNat 5, Felt252.ofNat 6] ++
          [CairoVersion.toFelt CairoVersion.Cairo1])) :=
  ⟨rfl,
    (serialize_calldata_order exampleDoc
      [Felt252.ofNat 1, Felt252.ofNat 2] [Felt252.ofNat 3] []
      [Felt252.ofNat 4, Felt252.ofNat 5, Felt252.ofNat 6] rfl).1⟩

/-- C2: the rendered output of any calldata sequence is the elements'
canonical decimal strings joined by single ASCII spaces — exactly
`n - 1` spaces for `n` elements, no leading or trailing separator — and
the write replaces the destination's previous content. -/
theorem render_calldata_spec (l : List Felt252) (h : l ≠ []) :
    (render_calldata l).data.count ' ' = l.length - 1
    ∧ (∀ c, (render_calldata l).data.head? = some c → ¬ c = ' ')
    ∧ (∀ c, (render_calldata l).data.getLast? = some c → ¬ c = ' ')
    ∧ (∀ (fs : FileSystem) (dest : String),
        fs_write fs dest (render_calldata l) dest = some (render_calldata l)) := by
  have hprop : ∀ s ∈ l.map Felt252.to_string,
      s.data ≠ [] ∧ ∀ c ∈ s.data, ¬ c = ' ' := by
    intro s hs
    obtain ⟨f, hf, rfl⟩ := List.mem_map.mp hs
    exact felt_data_props f
  refine ⟨render_calldata_count l, ?_, ?_, ?_⟩
  · intro c hc
    exact join_space_head _ (by simpa using h) hprop c hc
  · intro c hc
    exact join_space_last _ hprop c hc
  · intro fs dest
    simp [fs_write]

/-- Witness for C2 at a two-element calldata sequence. -/
theorem render_calldata_spec_witness :
    ([Felt252.ofNat 10, Felt252.ofNat 2] : List Felt252) ≠ []
    ∧ (render_calldata [Felt252.ofNat 10, Felt252.ofNat 2]).data.count ' ' =
      ([Felt252.ofNat 10, Felt252.ofNat 2] : List Felt252).length - 1 :=
  ⟨by simp, (render_calldata_spec [Felt252.ofNat 10, Felt252.ofNat 2] (by simp)).1⟩

/-- C3: decoding a JSON array flattens nested arrays inline, depth-first and
left-to-right — the decode of an array is the concatenation of the decodes
of its elements — and decoding `[[1,2],[3,[4,5]]]` yields `[1,2,3,4,5]`. -/
theorem decode_flatten_spec :
    (∀ xs : List Json,
      decodeJson (Json.arr xs) = List.flatten <$> xs.mapM decodeJson)
    ∧ decodeJson (Json.arr
        [Json.arr [Json.num 1, Json.num 2],
         Json.arr [Json.num 3, Json.arr [Json.num 4, Json.num 5]]]) =
      Except.ok [Felt252.ofNat 1, Felt252.ofNat 2, Felt252.ofNat 3,
        Felt252.ofNat 4, Felt252.ofNat 5] := by
  constructor
  · intro xs
    exact decodeArr_eq_mapM xs
  · rfl

/-- C4: on the concrete document with sections `config=[1,2]`,
`public_input=[3]`, `unsent_commitment=[]`, `witness=[[4],[5,6]]`,
serialization succeeds and writes exactly `"1 2 3 4 5 6 1"`. -/
theorem serialize_example :
    serialize_calldata_string exampleDoc = Except.ok "1 2 3 4 5 6 1"
    ∧ ∀ fs : FileSystem,
      serialize_proof exampleDoc "calldata" fs =
        (fs_write fs "calldata" "1 2 3 4 5 6 1", none) := by
  constructor
  · rfl
  · intro fs
    rfl

/-- C5: whenever any of the four required sections is absent, parsing fails
with a `MissingSection` error naming an absent required section (never
treating it as empty), and when exactly one section is absent the error
names precisely that section. -/
theorem parse_missing_section (secs : List (String × Json)) (n : String)
    (hn : n ∈ requiredSections) (habs : findSection secs n = none) :
    (∃ m, m ∈ requiredSections ∧ findSection secs m = none ∧
      parse_proof_file (RawProofText.sections secs) =
        Except.error (SerError.MissingSection m))
    ∧ ((∀ m, m ∈ requiredSections → ¬ m = n → ¬ findSection secs m = none) →
      parse_proof_file (RawProofText.sections secs) =
        Except.error (SerError.MissingSection n)) := by
  have hmem : n = "config" ∨ n = "public_input" ∨
      n = "unsent_commitment" ∨ n = "witness" := by
    simpa [requiredSections] using hn
  constructor
  · cases h1 : findSection secs "config" with
    | none =>
      exact ⟨"config", by simp [requiredSections], h1,
        parse_proof_file_error _ _ (by simp [parse, h1])⟩
    | some c =>
      cases h2 : findSection secs "public_input" with
      | none =>
        exact ⟨"public_input", by simp [requiredSections], h2,
          parse_proof_file_error _ _ (by simp [parse, h1, h2])⟩
      | some p =>
        cases h3 : findSection secs "unsent_commitment" with
        | none =>
          exact ⟨"unsent_commitment", by simp [requiredSections], h3,
            parse_proof_file_error _ _ (by simp [parse, h1, h2, h3])⟩
        | some u =>
          cases h4 : findSection secs "witness" with
          | none =>
            exact ⟨"witness", by simp [requiredSections], h4,
              parse_proof_file_error _ _ (by simp [parse, h1, h2, h3, h4])⟩
          | some w =>
            exfalso
            rcases hmem with rfl | rfl | rfl | rfl
            · simp [habs] at h1
            · simp [habs] at h2
            · simp [habs] at h3
            · simp [habs] at h4
  · intro huniq
    rcases hmem with rfl | rfl | rfl | rfl
    · exact parse_proof_file_error _ _ (by simp [parse, habs])
    · cases hc : findSection secs "config" with
      | none =>
        exact absurd hc (huniq "config" (by simp [requiredSections]) (by decide))
      | some c =>
        exact parse_proof_file_error _ _ (by simp [parse, hc, habs])
    · cases hc : findSection secs "config" with
      | none =>
        exact absurd hc (huniq "config" (by simp [requiredSections]) (by decide))
      | some c =>
        cases hp : findSection secs "public_input" with
        | none =>
          exact absurd hp
            (huniq "public_input" (by simp [requiredSections]) (by decide))
        | some p =>
          exact parse_proof_file_error _ _ (by simp [parse, hc, hp, habs])
    · cases hc : findSection secs "config" with
      | none =>
        exact absurd hc (huniq "config" (by simp [requiredSections]) (by decide))
      | some c =>
        cases hp : findSection secs "public_input" with
        | none =>
          exact absurd hp
            (huniq "public_input" (by simp [requiredSections]) (by decide))
        | some p =>
          cases hu : findSection secs "unsent_commitment" with
          | none =>
            exact absurd hu
              (huniq "unsent_commitment" (by simp [requiredSections]) (by decide))
          | some u =>
            exact parse_proof_file_error _ _ (by simp [parse, hc, hp, hu, habs])

/-- Witness for C5: a document missing only its `witness` key fails with
`MissingSection "witness"`. -/
theorem parse_missing_section_witness :
    "witness" ∈ requiredSections
    ∧ findSection missingWitnessSections "witness" = none
    ∧ parse_proof_file (RawProofText.sections missingWitnessSections) =
      Except.error (SerError.MissingSection "witness") :=
  ⟨by simp [requiredSections], rfl,
    (parse_missing_section missingWitnessSections "witness"
      (by simp [requiredSections]) rfl).2
      (by
        intro m hm hne
        fin_cases hm <;>
          first
          | exact Option.ne_none_iff_isSome.mpr rfl
          | simp_all)⟩

/-- C6: when any pipeline stage fails, `serialize_proof` reports the error
and the file system is untouched (no output written on any error path);
in particular a boolean inside a section fails with `UnsupportedShape`. -/
theorem serialize_fail_fast (raw : RawProofText) (output : String)
    (fs : FileSystem) (e : SerError)
    (h : (serialize_proof raw output fs).snd = some e) :
    (serialize_proof raw output fs).fst = fs
    ∧ serialize_calldata_string raw = Except.error e
    ∧ serialize_calldata_string docBoolWitness =
      Except.error SerError.UnsupportedShape := by
  refine ⟨?_, ?_, rfl⟩
  · unfold serialize_proof at h ⊢
    cases hs : serialize_calldata_string raw with
    | error err => simp [hs]
    | ok s =>
      rw [hs] at h
      simp at h
  · unfold serialize_proof at h
    cases hs : serialize_calldata_string raw with
    | error err =>
      rw [hs] at h
      simp at h
      rw [h]
    | ok s =>
      rw [hs] at h
      simp at h

/-- Witness for C6 at the boolean-witness document: the error is reported
and the file system is unchanged. -/
theorem serialize_fail_fast_witness :
    (serialize_proof docBoolWitness "out" emptyFS).snd =
      some SerError.UnsupportedShape
    ∧ (serialize_proof docBoolWitness "out" emptyFS).fst = emptyFS :=
  ⟨rfl,
    (serialize_fail_fast docBoolWitness "out" emptyFS
      SerError.UnsupportedShape rfl).1⟩

/-- C7: for every valid integer literal (decimal or hex string via
`parseScalar`, or native integer), the decoded field element renders as the
canonical decimal string of the value reduced modulo the prime — digits
only, no sign, no leading zero — and an invalid token fails with
`MalformedScalar`. -/
theorem scalar_roundtrip (s : String) (v : ℕ) (h : parseScalar s = some v) :
    decodeJson (Json.str s) = Except.ok [Felt252.ofNat v]
    ∧ Felt252.to_string (Felt252.ofNat v) = Nat.repr (v % PRIME)
    ∧ parseScalar (Felt252.to_string (Felt252.ofNat v)) = some (v % PRIME)
    ∧ (∀ c ∈ (Felt252.to_string (Felt252.ofNat v)).toList, c.isDigit)
    ∧ (0 < v % PRIME → ∀ c,
        (Felt252.to_string (Felt252.ofNat v)).toList.head? = some c → ¬ c = '0')
    ∧ (∀ n : ℕ, decodeJson (Json.num n) = Except.ok [Felt252.ofNat n])
    ∧ (∀ t, parseScalar t = none →
        decodeJson (Json.str t) = Except.error (SerError.MalformedScalar t)) := by
  refine ⟨?_, rfl, ?_, ?_, ?_, fun n => rfl, ?_⟩
  · simp [decodeJson, h]
  · exact parseScalar_repr (v % PRIME)
  · intro c hc
    exact repr_digits _ c hc
  · intro hpos c hc
    exact repr_head _ hpos c hc
  · intro t ht
    simp [decodeJson, ht]

/-- Witness for C7 at the hexadecimal literal `"0x12"`. -/
theorem scalar_roundtrip_witness :
    parseScalar "0x12" = some 18
    ∧ Felt252.to_string (Felt252.ofNat 18) = Nat.repr (18 % PRIME) :=
  ⟨rfl, (scalar_roundtrip "0x12" 18 rfl).2.1⟩

/-- C8: serialization is deterministic — on identical parsed input the four
decoded vectors and the rendered output string are uniquely determined by
the input document. -/
theorem serialize_deterministic (raw : RawProofText)
    (t1 t2 : List Felt252 × List Felt252 × List Felt252 × List Felt252)
    (s1 s2 : String)
    (h1 : parse_proof_file raw = Except.ok t1)
    (h2 : parse_proof_file raw = Except.ok t2)
    (h3 : serialize_calldata_string raw = Except.ok s1)
    (h4 : serialize_calldata_string raw = Except.ok s2) :
    t1 = t2 ∧ s1 = s2 :=
  ⟨Except.ok.inj (h1.symm.trans h2), Except.ok.inj (h3.symm.trans h4)⟩

/-- Witness for C8 at the spec's worked example. -/
theorem serialize_deterministic_witness :
    parse_proof_file exampleDoc = Except.ok
      ([Felt252.ofNat 1, Felt252.ofNat 2], [Felt252.ofNat 3], ([] : List Felt252),
        [Felt252.ofNat 4, Felt252.ofNat 5, Felt252.ofNat 6])
    ∧ serialize_calldata_string exampleDoc = Except.ok "1 2 3 4 5 6 1"
    ∧ "1 2 3 4 5 6 1" = "1 2 3 4 5 6 1" :=
  ⟨rfl, rfl,
    (serialize_deterministic exampleDoc
      ([Felt252.ofNat 1, Felt252.ofNat 2], [Felt252.ofNat 3], [],
        [Felt252.ofNat 4, Felt252.ofNat 5, Felt252.ofNat 6])
      ([Felt252.ofNat 1, Felt252.ofNat 2], [Felt252.ofNat 3], [],
        [Felt252.ofNat 4, Felt252.ofNat 5, Felt252.ofNat 6])
      "1 2 3 4 5 6 1" "1 2 3 4 5 6 1" rfl rfl rfl rfl).2⟩

/-- C9: the serialization path always appends the `Cairo1` version tag — the
final calldata element is the field element 1, rendered as the final decimal
token `"1"` — while the enum's `Cairo0` variant maps to 0 but is never
emitted by `serialize_proof`. -/
theorem version_tag_always_cairo1 (raw : RawProofText) (c p u w : List Felt252)
    (h : parse_proof_file raw = Except.ok (c, p, u, w)) :
    CairoVersion.toFelt CairoVersion.Cairo0 = Felt252.ofNat 0
    ∧ CairoVersion.toFelt CairoVersion.Cairo1 = Felt252.ofNat 1
    ∧ Felt252.to_string (CairoVersion.toFelt CairoVersion.Cairo1) = "1"
    ∧ serialize_calldata_string raw =
      Except.ok (render_calldata
        (c ++ p ++ u ++ w ++ [CairoVersion.toFelt CairoVersion.Cairo1]))
    ∧ (c ++ p ++ u ++ w = [] → serialize_calldata_string raw = Except.ok "1")
    ∧ (¬ c ++ p ++ u ++ w = [] → serialize_calldata_string raw =
        Except.ok (render_calldata (c ++ p ++ u ++ w) ++ " 1")) := by
  have hser : serialize_calldata_string raw =
      Except.ok (render_calldata
        (c ++ p ++ u ++ w ++ [CairoVersion.toFelt CairoVersion.Cairo1])) := by
    unfold serialize_calldata_string
    rw [h]
    rfl
  refine ⟨rfl, rfl, rfl, hser, ?_, ?_⟩
  · intro hemp
    rw [hser, hemp]
    rfl
  · intro hne
    rw [hser]
    unfold render_calldata
    have hmap : (c ++ p ++ u ++ w ++
        [CairoVersion.toFelt CairoVersion.Cairo1]).map Felt252.to_string =
        (c ++ p ++ u ++ w).map Felt252.to_string ++
          [Felt252.to_string (CairoVersion.toFelt CairoVersion.Cairo1)] := by
      simp
    rw [hmap, join_space_append_single _ _ (by simpa using hne)]
    rw [String.append_assoc]
    rfl

/-- Witness for C9 at the spec's worked example. -/
theorem version_tag_always_cairo1_witness :
    parse_proof_file exampleDoc = Except.ok
      ([Felt252.ofNat 1, Felt252.ofNat 2], [Felt252.ofNat 3], ([] : List Felt252),
        [Felt252.ofNat 4, Felt252.ofNat 5, Felt252.ofNat 6])
    ∧ Felt252.to_string (CairoVersion.toFelt CairoVersion.Cairo1) = "1" :=
  ⟨rfl,
    (version_tag_always_cairo1 exampleDoc
      [Felt252.ofNat 1, Felt252.ofNat 2] [Felt252.ofNat 3] []
      [Felt252.ofNat 4, Felt252.ofNat 5, Felt252.ofNat 6] rfl).2.2.1⟩

/-- C10: when all four sections decode to empty vectors, serialization still
succeeds and the written output is exactly the single character `"1"`. -/
theorem serialize_empty_calldata (raw : RawProofText)
    (h : parse_proof_file raw = Except.ok ([], [], [], [])) :
    serialize_calldata_string raw = Except.ok "1"
    ∧ ∀ (output : String) (fs : FileSystem),
      serialize_proof raw output fs = (fs_write fs output "1", none) := by
  have h1 : serialize_calldata_string raw = Except.ok "1" := by
    unfold serialize_calldata_string
    rw [h]
    rfl
  refine ⟨h1, ?_⟩
  intro output fs
  unfold serialize_proof
  rw [h1]

/-- Witness for C10 at the all-empty-sections document. -/
theorem serialize_empty_calldata_witness :
    parse_proof_file emptyDoc =
      Except.ok (([] : List Felt252), ([] : List Felt252),
        ([] : List Felt252), ([] : List Felt252))
    ∧ serialize_calldata_string emptyDoc = Except.ok "1" :=
  ⟨rfl, (serialize_empty_calldata emptyDoc rfl).1⟩
